import Mathlib

/-!
Verification of the geometry/state-cycling engine of `moveto.py` (gryf/moveto).

The Python source is embedded shallowly:

* `Rect` models the four-field coordinate dictionaries (`pos_x`, `pos_y`,
  `size_x`, `size_y`).  All geometry values are integers in the source
  (regex-captured digits); the only non-integer values are produced by
  Python float division `/ 2`, which is exact on the even operands the code
  produces, so `Int` with exact division is a faithful model.  Command
  arguments use `ℚ` because the `mousemove` center can be a half pixel.
* `Screen` models class `Screen` (fields `x`, `y`, `x_shift`, `y_shift`,
  `main`, and the three cached rectangles).
* External queries (xrandr monitor list, xdotool window geometry output,
  xwininfo 64x64 dock candidates, the WindowMaker config file and the
  startup magic/decoration measurement) are modelled as explicit inputs.
-/

/-- A coordinate dictionary `{pos_x, pos_y, size_x, size_y}`. -/
structure Rect where
  pos_x : Int
  pos_y : Int
  size_x : Int
  size_y : Int
deriving DecidableEq, Repr

/-- The two booleans read from `~/GNUstep/Defaults/WindowMaker` by `Conf`:
`cover_miniwindows` (default `True`) and `cover_dock` (default `False`). -/
structure Conf where
  cover_miniwindows : Bool
  cover_dock : Bool
deriving DecidableEq, Repr

/-- Raw monitor data captured by the xrandr regex in `get_monitors`:
width `x`, height `y`, horizontal shift `sx`, vertical shift `sy`. -/
structure MonData where
  x : Int
  y : Int
  sx : Int
  sy : Int
deriving DecidableEq, Repr

/-- Class `Screen`: one display, its (usable, after `calculate_columns`)
dimensions, shifts, main flag and the three cached target rectangles. -/
structure Screen where
  x : Int
  y : Int
  x_shift : Int
  y_shift : Int
  main : Bool
  left_half : Rect
  right_half : Rect
  maximized : Rect
deriving DecidableEq, Repr

/-- Python `Screen.__init__`: rectangles start zeroed, `main` starts `False`. -/
def Screen.init (x y sx sy : Int) : Screen :=
  { x := x, y := y, x_shift := sx, y_shift := sy, main := false,
    left_half := ⟨0, 0, 0, 0⟩,
    right_half := ⟨0, 0, 0, 0⟩,
    maximized := ⟨0, 0, 0, 0⟩ }

/-- Python `Screen.calculate_columns`: derive the usable dimensions and the three
target rectangles.  `dh` is the global `DECORATIONS_HEIGHT`. -/
def Screen.calculate_columns (dh : Int) (conf : Conf) (s : Screen) : Screen :=
  -- sx, sy = self.x, self.y; decrement sx if odd
  let sx0 := if s.x % 2 ≠ 0 then s.x - 1 else s.x
  -- dock (64px) + 2px border on the main screen unless the dock may be
  -- covered; plain 2px border otherwise
  let sx := if s.main ∧ ¬conf.cover_dock then sx0 - (64 + 2) else sx0 - 2
  -- miniwindows (64px) + 2px border at the bottom unless coverable
  let sy := if ¬conf.cover_miniwindows then s.y - (64 + 2) else s.y
  { s with
    x := sx
    y := sy
    left_half := { s.left_half with
      size_x := sx / 2 - 1
      pos_x := s.x_shift
      size_y := sy - dh }
    right_half := { s.right_half with
      size_x := sx / 2
      pos_x := sx / 2 + s.x_shift
      size_y := sy - dh }
    maximized := { s.maximized with
      pos_x := s.x_shift
      size_x := sx
      size_y := sy - dh } }

/-- The window data held by `WMWindow` (`self.pos_x`, `self.pos_y`,
`self.x`, `self.y`); each is `None` until parsed successfully. -/
structure WinData where
  pos_x : Option Int
  pos_y : Option Int
  size_x : Option Int
  size_y : Option Int
deriving DecidableEq, Repr

/-- Python dict equality `window == rect` between `WMWindow.get_data()`
(whose values may be `None`) and a computed rectangle: `None` never equals
a number, numbers compare numerically. -/
def winEqRect (w : WinData) (r : Rect) : Bool :=
  w.pos_x == some r.pos_x && w.pos_y == some r.pos_y &&
  w.size_x == some r.size_x && w.size_y == some r.size_y

/-- The three recognized placement states (`None` is modelled by
`Option WinState`). -/
inductive WinState
  | left
  | right
  | maximized
deriving DecidableEq, Repr

/-- Python `v in range(lo, hi)`: half-open interval membership. -/
def inRange (v lo hi : Int) : Bool := decide (lo ≤ v) && decide (v < hi)

/-- The `window['size_x'] in range(scr.x - 32, scr.x + 32)` test of
`guess_dimensions`; `None in range(...)` is `False` in Python. -/
def sizeInMaxRange (w : WinData) (scr : Screen) : Bool :=
  match w.size_x with
  | some v => inRange v (scr.x - 32) (scr.x + 32)
  | none => false

/-- Python `Screens.guess_dimensions`: scan the screens in order; exact dict
equality against `left_half` / `right_half` wins first, then the
approximate maximized test `pos_x == pos_y == 0` and
`size_x in range(scr.x - 32, scr.x + 32)` (the source tests the same
range condition twice). -/
def guess_dimensions (screens : List Screen) (w : WinData) : Option WinState :=
  match screens with
  | [] => none
  | scr :: rest =>
    if winEqRect w scr.left_half then some .left
    else if winEqRect w scr.right_half then some .right
    else if (w.pos_x == w.pos_y && w.pos_y == some 0) &&
        (sizeInMaxRange w scr && sizeInMaxRange w scr) then some .maximized
    else guess_dimensions rest w

-- A few concrete sanity checks of the layout computation: a non-main
-- 1000x1000 screen keeps 998 usable pixels and splits them 498 + 499.
example :
    (Screen.calculate_columns 29 ⟨true, false⟩ (Screen.init 1000 1000 0 0)).x
      = 998 := by decide

example :
    (Screen.calculate_columns 29 ⟨true, false⟩
        (Screen.init 1000 1000 0 0)).left_half.size_x = 498 := by decide

example :
    (Screen.calculate_columns 29 ⟨true, false⟩
        (Screen.init 1000 1000 0 0)).right_half.size_x = 499 := by decide

/-- The two cycling directions (also used as the monitor-move direction
strings `"left"` / `"right"` inside the transition tables). -/
inductive Direction
  | left
  | right
deriving DecidableEq, Repr

/-- The three target-rectangle keys (`"left_half"`, `"right_half"`,
`"maximized"`). -/
inductive Target
  | left_half
  | right_half
  | maximized
deriving DecidableEq, Repr

/-- The `movement` dispatch dictionaries of `cycle`: current state maps to
(target key, optional monitor-move direction, move-before-resize flag). -/
def movement (dir : Direction) (st : Option WinState) :
    Target × Option Direction × Bool :=
  match dir with
  | .left =>
    match st with
    | some .left => (.right_half, some .left, false)
    | some .maximized => (.left_half, none, false)
    | some .right => (.maximized, none, true)
    | none => (.left_half, none, false)
  | .right =>
    match st with
    | some .left => (.maximized, none, false)
    | some .maximized => (.right_half, none, true)
    | some .right => (.left_half, some .right, false)
    | none => (.right_half, none, false)

/-- Python `WMWindow.move_to_screen`: step the current screen index, refusing a
negative index or an index past the end of the screen list (the Python
`IndexError` probe).  Returns the new index on success. -/
def move_to_screen (len cur : Nat) (d : Direction) : Option Nat :=
  let idx : Int := match d with
    | .right => (cur : Int) + 1
    | .left => (cur : Int) - 1
  if idx < 0 then none
  else if idx < (len : Int) then some idx.toNat
  else none

/-- Python `needle in hay` for strings, on `List Char`: `startsList n h`
is "h starts with n". -/
def startsList : List Char → List Char → Bool
  | [], _ => true
  | _ :: _, [] => false
  | a :: as, b :: bs => a == b && startsList as bs

/-- Python substring containment `needle in hay`. -/
def containsList (needle : List Char) : List Char → Bool
  | [] => startsList needle []
  | b :: bs => startsList needle (b :: bs) || containsList needle bs

/-- Python `WMWindow.misbehaving_windows`: the fixed deny-list of title
substrings. -/
def misbehaving_windows : List (List Char) :=
  ["Oracle VM VirtualBox".toList, "LibreOffice".toList,
   "cool-retro-term".toList]

/-- The loop at the top of `WMWindow.get_coords`: if any deny-list entry
occurs in the window title, force `pos_y = 21` on all three rectangles of
the current screen. -/
def apply_misbehave (name : List Char) (s : Screen) : Screen :=
  if misbehaving_windows.any (fun n => containsList n name) then
    { s with
      left_half := { s.left_half with pos_y := 21 }
      right_half := { s.right_half with pos_y := 21 }
      maximized := { s.maximized with pos_y := 21 } }
  else s

/-- Python `WMWindow.get_coords`: misbehaving-window correction, then the
`coord_map` lookup. -/
def get_coords (name : List Char) (s : Screen) (t : Target) : Rect :=
  let s := apply_misbehave name s
  match t with
  | .maximized => s.maximized
  | .left_half => s.left_half
  | .right_half => s.right_half

/-- One primitive xdotool subcommand emitted by `cycle`.  Arguments are
rationals because `mousemove` receives `pos + size / 2`, which Python
computes in exact binary floating point (a possibly half-integral
value). -/
inductive Cmd
  | windowmove (x y : ℚ)
  | windowsize (w h : ℚ)
  | mousemove (x y : ℚ)
deriving DecidableEq, Repr

/-- The command-emission tail of `cycle`: look up the current screen
(`none` models the `IndexError` crash on an empty screen list), apply
`get_coords`, and emit move/size in the order selected by the
move-before-resize flag, followed by the mouse warp to the rectangle
center. -/
def emitCmds (screens : List Screen) (cur : Nat) (name : List Char)
    (key : Target) (order : Bool) : Option (List Cmd × Nat) :=
  match screens[cur]? with
  | none => none
  | some scr =>
    let c := get_coords name scr key
    let mouse := Cmd.mousemove ((c.pos_x : ℚ) + (c.size_x : ℚ) / 2)
      ((c.pos_y : ℚ) + (c.size_y : ℚ) / 2)
    if order then
      some ([Cmd.windowsize (c.size_x : ℚ) (c.size_y : ℚ),
             Cmd.windowmove (c.pos_x : ℚ) (c.pos_y : ℚ), mouse], cur)
    else
      some ([Cmd.windowmove (c.pos_x : ℚ) (c.pos_y : ℚ),
             Cmd.windowsize (c.size_x : ℚ) (c.size_y : ℚ), mouse], cur)

/-- The decision core of `cycle` after the window state is known: consult
the `movement` table, perform the monitor move (aborting with no commands
when `move_to_screen` fails), then emit.  The result is the emitted
command list and the final screen index; `none` models an uncaught
exception (empty screen list). -/
def cycleCore (screens : List Screen) (cur : Nat) (st : Option WinState)
    (name : List Char) (dir : Direction) : Option (List Cmd × Nat) :=
  let (key, mdir, order) := movement dir st
  match mdir with
  | some d =>
    match move_to_screen screens.length cur d with
    | none => some ([], cur)
    | some newCur => emitCmds screens newCur name key order
  | none => emitCmds screens cur name key order

example : movement .left (some .right) = (.maximized, none, true) := by decide

example :
    cycleCore [Screen.calculate_columns 29 ⟨true, false⟩
        (Screen.init 1920 1080 0 0)] 0 (some .left) [] .left
      = some ([], 0) := by decide

/-- One raw monitor entry as iterated by `_discover_screens`:
`(name, data)` in dict insertion order (xrandr output order). -/
def Monitors := List (String × MonData)

/-- Python truthiness of `self._main` (an optional command-line string):
`None` and the empty string are falsy. -/
def mainTruthy : Option String → Bool
  | none => false
  | some s => !(s == "")

/-- Build a `Screen` from raw monitor data with a given main flag
(`Screen(data["x"], data["y"], data["sx"], data["sy"])` plus the optional
`screen.main = True`). -/
def mkScreen (d : MonData) (m : Bool) : Screen :=
  { Screen.init d.x d.y d.sx d.sy with main := m }

/-- The construction loop of `_discover_screens`.  `useMatch` is the
loop-invariant condition `self._main and len(monitors.keys()) > 1`;
`first` tracks `not self.screens.screens` (true only on the first
iteration, since every iteration appends). -/
def buildAux (useMatch : Bool) (mn : Option String) (first : Bool) :
    List (String × MonData) → List Screen
  | [] => []
  | nd :: rest =>
    let m := if useMatch then mn == some nd.1 else first
    mkScreen nd.2 m :: buildAux useMatch mn false rest

/-- The per-monitor construction pass of `_discover_screens` (before
dedup/sort/dock detection). -/
def buildScreens (monitors : List (String × MonData)) (mn : Option String) :
    List Screen :=
  buildAux (mainTruthy mn && decide (monitors.length > 1)) mn true monitors

/-- Python dict assignment `m[k] = v`: overwrite in place if the key
exists (keeping its position), else append. -/
def updateAssoc (m : List (Int × Screen)) (k : Int) (v : Screen) :
    List (Int × Screen) :=
  match m with
  | [] => [(k, v)]
  | (k0, v0) :: rest =>
    if k0 = k then (k0, v) :: rest else (k0, v0) :: updateAssoc rest k v

/-- The dict comprehension `screens[screen.x_shift] = screen` over the
built screen list. -/
def buildDict (l : List Screen) : List (Int × Screen) :=
  l.foldl (fun m s => updateAssoc m s.x_shift s) []

/-- Dict key list, in insertion order. -/
def dictKeys (m : List (Int × Screen)) : List Int := m.map Prod.fst

/-- Dict lookup. -/
def lookupD : List (Int × Screen) → Int → Option Screen
  | [], _ => none
  | (k0, v0) :: rest, k => if k0 = k then some v0 else lookupD rest k

/-- Insert into an ascending list (one step of modelling Python
`sorted`). -/
def insSorted (x : Int) : List Int → List Int
  | [] => [x]
  | y :: ys => if x ≤ y then x :: y :: ys else y :: insSorted x ys

/-- Python `sorted` on integer keys (insertion sort; stability is
irrelevant because dict keys are distinct). -/
def sortInts : List Int → List Int
  | [] => []
  | x :: xs => insSorted x (sortInts xs)

/-- Lines 499-504 of `_discover_screens`:
`screens = {s.x_shift: s for s in list}` followed by
`[screens[key] for key in sorted(screens.keys())]`. -/
def sortDedup (l : List Screen) : List Screen :=
  (sortInts (dictKeys (buildDict l))).filterMap (lookupD (buildDict l))

/-- Python `result[shift_x].append(shift_y)` with `KeyError` fallback, i.e. a
dict of lists in insertion order. -/
def addCand (m : List (Int × List Int)) (kx ky : Int) :
    List (Int × List Int) :=
  match m with
  | [] => [(kx, [ky])]
  | (k, vs) :: rest =>
    if k = kx then (k, vs ++ [ky]) :: rest else (k, vs) :: addCand rest kx ky

/-- The grouping loop of `_detect_dock_position` over the 64x64 window
candidates `(shift_x, shift_y)` parsed from `xwininfo -tree`. -/
def groupCands (cands : List (Int × Int)) : List (Int × List Int) :=
  cands.foldl (fun m c => addCand m c.1 c.2) []

/-- Python `len(set(...))`: the number of distinct values in a list. -/
def numDistinct (l : List Int) : Nat := l.dedup.length

/-- The winner-selection loop of `_detect_dock_position`: start with
`length = 0, winner = 0`; a strictly larger distinct-count wins, first
encountered (dict insertion order) on ties. -/
def pickWinner (groups : List (Int × List Int)) : Int :=
  (groups.foldl
    (fun (acc : Nat × Int) g =>
      let n := numDistinct g.2
      if n > acc.1 then (n, g.1) else acc)
    (0, 0)).2

/-- The marking loop of `_detect_dock_position`: a screen is main iff the
winning shift lies in `range(screen.x_shift, screen.x + screen.x_shift + 1)`
(at this point `screen.x` is still the raw monitor width). -/
def detect_dock_position (cands : List (Int × Int)) (screens : List Screen) :
    List Screen :=
  let winner := pickWinner (groupCands cands)
  screens.map (fun s =>
    { s with main := inRange winner s.x_shift (s.x + s.x_shift + 1) })

/-- The guard `len(self.screens.screens) > 1 and not self._main` that
triggers dock detection. -/
def dockPassCond (monitors : List (String × MonData)) (mn : Option String) :
    Bool :=
  decide ((sortDedup (buildScreens monitors mn)).length > 1) &&
    !(mainTruthy mn)

/-- Python `WMWindow._discover_screens`: build, dedup by `x_shift` (last wins),
sort ascending by `x_shift`, optionally run dock detection, then compute
every screen's columns. -/
def discover_screens (monitors : List (String × MonData)) (mn : Option String)
    (cands : List (Int × Int)) (conf : Conf) (dh : Int) : List Screen :=
  let sorted := sortDedup (buildScreens monitors mn)
  let afterDock :=
    if dockPassCond monitors mn then detect_dock_position cands sorted
    else sorted
  afterDock.map (Screen.calculate_columns dh conf)

/-- One line of `xdotool getactivewindow getwindowgeometry` output, at the
granularity the two regexes distinguish: a line matching `position_re`
(captures are `\d+`, hence naturals), a line matching `geometry_re`, or
anything else. -/
inductive OutLine
  | position (x y : Nat)
  | geometry (w h : Nat)
  | other
deriving DecidableEq, Repr

/-- The screen-locating loop of `_get_props`: first screen whose
`range(scr.x_shift, scr.x + scr.x_shift)` contains the corrected
`pos_x`; `current_screen` keeps its initial value 0 when none matches. -/
def locateAux (px : Int) : List Screen → Nat → Nat
  | [], _ => 0
  | s :: rest, i =>
    if inRange px s.x_shift (s.x + s.x_shift) then i
    else locateAux px rest (i + 1)

/-- Python `WMWindow._get_props`: reset all four fields to `None`; give up unless
the output has exactly 3 lines; parse position (applying the `- 1` and
`- MAGIC_NO` corrections and locating the current screen) and geometry
independently.  Returns the window data and the current screen index. -/
def get_props (magic : Int) (screens : List Screen) (out : List OutLine) :
    WinData × Nat :=
  match out with
  | [_, posLine, sizeLine] =>
    let (px, py, cur) :=
      match posLine with
      | .position a b =>
        let px : Int := (a : Int) - 1
        let py : Int := (b : Int) - magic
        (some px, some py, locateAux px screens 0)
      | _ => (none, none, 0)
    let (sx, sy) :=
      match sizeLine with
      | .geometry w h => (some (w : Int), some (h : Int))
      | _ => (none, none)
    (⟨px, py, sx, sy⟩, cur)
  | _ => (⟨none, none, none, none⟩, 0)

/-- The full `cycle` invocation: discover screens from the monitor query,
read the active window's geometry, classify it, and run the transition.
All external query results are explicit inputs. -/
def cycle (magic dh : Int) (conf : Conf) (monitors : List (String × MonData))
    (mn : Option String) (cands : List (Int × Int)) (title : List Char)
    (out : List OutLine) (dir : Direction) : Option (List Cmd × Nat) :=
  let screens := discover_screens monitors mn cands conf dh
  let (w, cur) := get_props magic screens out
  let st := guess_dimensions screens w
  cycleCore screens cur st title dir

-- End-to-end sanity check (spec §8, scenario 1): two 1920x1080 monitors,
-- right one main, dock-overlap disallowed, mini-overlap allowed,
-- decorations 29.  A window sitting exactly on the left monitor's
-- left_half classifies as `left`.
example :
    guess_dimensions
      (discover_screens
        [("DP-1", ⟨1920, 1080, 0, 0⟩), ("DP-2", ⟨1920, 1080, 1920, 0⟩)]
        (some "DP-2") [] ⟨true, false⟩ 29)
      ⟨some 0, some 0, some 958, some 1051⟩ = some .left := by decide

/-- Helper: the shape of a successful command emission. -/
theorem emitCmds_shape {screens : List Screen} {cur : Nat} {name : List Char}
    {key : Target} {order : Bool} {cmds : List Cmd} {newCur : Nat}
    (h : emitCmds screens cur name key order = some (cmds, newCur)) :
    ∃ scr, screens[cur]? = some scr ∧ newCur = cur ∧
      (let r := get_coords name scr key
       let mouse := Cmd.mousemove ((r.pos_x : ℚ) + (r.size_x : ℚ) / 2)
         ((r.pos_y : ℚ) + (r.size_y : ℚ) / 2)
       cmds = if order then
           [Cmd.windowsize (r.size_x : ℚ) (r.size_y : ℚ),
            Cmd.windowmove (r.pos_x : ℚ) (r.pos_y : ℚ), mouse]
         else
           [Cmd.windowmove (r.pos_x : ℚ) (r.pos_y : ℚ),
            Cmd.windowsize (r.size_x : ℚ) (r.size_y : ℚ), mouse]) := by
  unfold emitCmds at h
  cases hs : screens[cur]? with
  | none => rw [hs] at h; exact absurd h (by simp)
  | some scr =>
    rw [hs] at h
    refine ⟨scr, rfl, ?_, ?_⟩ <;> cases order <;>
      simp_all

/-- Claim C1: the transition tables are exactly as tabulated.  The eight
equations cover every (direction, state) pair, and `movement` is a total
function, so no other outputs are possible. -/
theorem movement_table_exact :
    movement .left (some .left) = (.right_half, some .left, false) ∧
    movement .left (some .maximized) = (.left_half, none, false) ∧
    movement .left (some .right) = (.maximized, none, true) ∧
    movement .left none = (.left_half, none, false) ∧
    movement .right (some .left) = (.maximized, none, false) ∧
    movement .right (some .maximized) = (.right_half, none, true) ∧
    movement .right (some .right) = (.left_half, some .right, false) ∧
    movement .right none = (.right_half, none, false) := by
  decide

/-- Claim C3: when the transition demands a monitor move but the index would
leave the screen list (index 0 moving left; last index moving right), the
whole cycle is a no-op: no command, index unchanged. -/
theorem cycle_boundary_noop (screens : List Screen) (cur : Nat)
    (st : Option WinState) (name : List Char) (dir : Direction)
    (h : ((movement dir st).2.1 = some Direction.left ∧ cur = 0) ∨
         ((movement dir st).2.1 = some Direction.right ∧
           screens.length ≤ cur + 1)) :
    cycleCore screens cur st name dir = some ([], cur) := by
  cases dir <;> rcases st with _ | st <;> try cases st
  all_goals
    simp only [movement] at h
  all_goals
    first
      | (rcases h with ⟨h1, h2⟩ | ⟨h1, h2⟩ <;> simp at h1)
      | skip
  · -- direction left, state left: move to previous monitor from index 0
    rcases h with ⟨-, h2⟩ | ⟨h1, -⟩
    · subst h2
      simp [cycleCore, movement, move_to_screen]
    · simp at h1
  · -- direction right, state right: move past the last monitor
    rcases h with ⟨h1, -⟩ | ⟨-, h2⟩
    · simp at h1
    · simp only [cycleCore, movement, move_to_screen]
      have : ¬ ((cur : Int) + 1 < (screens.length : Int)) := by omega
      simp [this, show ¬ ((cur : Int) + 1 < 0) by omega]

/-- Claim C3 witness: a single screen, window on its left half, cycling left. -/
theorem cycle_boundary_noop_witness :
    cycleCore [Screen.calculate_columns 29 ⟨true, false⟩
        (Screen.init 1920 1080 0 0)] 0 (some .left) [] .left
      = some ([], 0) :=
  cycle_boundary_noop _ 0 (some .left) [] .left (Or.inl ⟨rfl, rfl⟩)

/-- Claim C8: every cycle invocation that emits commands emits exactly
windowmove and windowsize for the target rectangle — windowsize first
exactly when the move-before-resize flag is set — followed by a mousemove
to the rectangle's center. -/
theorem cycle_commands_shape (screens : List Screen) (cur : Nat)
    (st : Option WinState) (name : List Char) (dir : Direction)
    (cmds : List Cmd) (newCur : Nat)
    (h : cycleCore screens cur st name dir = some (cmds, newCur))
    (hne : cmds ≠ []) :
    ∃ scr, screens[newCur]? = some scr ∧
      (let r := get_coords name scr (movement dir st).1
       let mouse := Cmd.mousemove ((r.pos_x : ℚ) + (r.size_x : ℚ) / 2)
         ((r.pos_y : ℚ) + (r.size_y : ℚ) / 2)
       cmds = if (movement dir st).2.2 then
           [Cmd.windowsize (r.size_x : ℚ) (r.size_y : ℚ),
            Cmd.windowmove (r.pos_x : ℚ) (r.pos_y : ℚ), mouse]
         else
           [Cmd.windowmove (r.pos_x : ℚ) (r.pos_y : ℚ),
            Cmd.windowsize (r.size_x : ℚ) (r.size_y : ℚ), mouse]) := by
  cases dir <;> rcases st with _ | st <;> try cases st
  all_goals
    simp only [cycleCore, movement] at h ⊢
  all_goals
    first
      | (obtain ⟨scr, h1, h2, h3⟩ := emitCmds_shape h
         subst h2
         exact ⟨scr, h1, h3⟩)
      | (split at h
         · exact absurd (congrArg Prod.fst (Option.some.inj h)).symm hne
         · obtain ⟨scr, h1, h2, h3⟩ := emitCmds_shape h
           subst h2
           exact ⟨scr, h1, h3⟩)

/-- Claim C8 witness: single screen, no recognized state, cycling left emits
move, size, mouse-center. -/
theorem cycle_commands_shape_witness :
    ∃ scr,
      [Screen.calculate_columns 29 ⟨true, false⟩
        (Screen.init 1920 1080 0 0)][(0 : Nat)]? = some scr ∧
      (let r := get_coords [] scr (movement .left none).1
       let mouse := Cmd.mousemove ((r.pos_x : ℚ) + (r.size_x : ℚ) / 2)
         ((r.pos_y : ℚ) + (r.size_y : ℚ) / 2)
       [Cmd.windowmove (((0 : Int)) : ℚ) (((0 : Int)) : ℚ),
        Cmd.windowsize (((958 : Int)) : ℚ) (((1051 : Int)) : ℚ),
        Cmd.mousemove ((((0 : Int)) : ℚ) + (((958 : Int)) : ℚ) / 2)
          ((((0 : Int)) : ℚ) + (((1051 : Int)) : ℚ) / 2)]
         = if (movement .left none).2.2 then
             [Cmd.windowsize (r.size_x : ℚ) (r.size_y : ℚ),
              Cmd.windowmove (r.pos_x : ℚ) (r.pos_y : ℚ), mouse]
           else
             [Cmd.windowmove (r.pos_x : ℚ) (r.pos_y : ℚ),
              Cmd.windowsize (r.size_x : ℚ) (r.size_y : ℚ), mouse]) :=
  cycle_commands_shape
    [Screen.calculate_columns 29 ⟨true, false⟩ (Screen.init 1920 1080 0 0)]
    0 none [] .left _ 0 rfl (by simp)

/-- Claim C9: a title containing any deny-list substring forces `pos_y = 21` on
all three rectangles of the destination screen before emission, whatever
`pos_y` the layout computation produced; otherwise the screen is
untouched. -/
theorem misbehaving_pos_y (title : List Char) (s : Screen) :
    ((misbehaving_windows.any fun n => containsList n title) = true →
      (apply_misbehave title s).left_half.pos_y = 21 ∧
      (apply_misbehave title s).right_half.pos_y = 21 ∧
      (apply_misbehave title s).maximized.pos_y = 21) ∧
    ((misbehaving_windows.any fun n => containsList n title) = false →
      apply_misbehave title s = s) := by
  constructor <;> intro h <;> simp [apply_misbehave, h]

/-- Claim C9 witness: a LibreOffice title is corrected (even with a nonzero
computed `pos_y`), an xterm title is untouched. -/
theorem misbehaving_pos_y_witness :
    ((apply_misbehave "LibreOffice Writer".toList
        (Screen.init 1920 1080 0 0)).left_half.pos_y = 21 ∧
     (apply_misbehave "LibreOffice Writer".toList
        (Screen.init 1920 1080 0 0)).right_half.pos_y = 21 ∧
     (apply_misbehave "LibreOffice Writer".toList
        (Screen.init 1920 1080 0 0)).maximized.pos_y = 21) ∧
    apply_misbehave "xterm".toList (Screen.init 1920 1080 0 0)
      = Screen.init 1920 1080 0 0 :=
  ⟨(misbehaving_pos_y "LibreOffice Writer".toList
      (Screen.init 1920 1080 0 0)).1 (by decide),
   (misbehaving_pos_y "xterm".toList
      (Screen.init 1920 1080 0 0)).2 (by decide)⟩

/-- Claim C2 counterexample: a 1000x1000 non-main monitor has usable width 998
but the two halves are 498 and 499 pixels wide: their sum is
`usable_width - 1`, not `usable_width`. -/
theorem halves_sum_counterexample :
    (Screen.calculate_columns 29 ⟨true, false⟩ (Screen.init 1000 1000 0 0)).x
        = 998 ∧
    (Screen.calculate_columns 29 ⟨true, false⟩
        (Screen.init 1000 1000 0 0)).left_half.size_x +
      (Screen.calculate_columns 29 ⟨true, false⟩
        (Screen.init 1000 1000 0 0)).right_half.size_x = 997 ∧
    ¬ ((Screen.calculate_columns 29 ⟨true, false⟩
          (Screen.init 1000 1000 0 0)).left_half.size_x +
        (Screen.calculate_columns 29 ⟨true, false⟩
          (Screen.init 1000 1000 0 0)).right_half.size_x
        = (Screen.calculate_columns 29 ⟨true, false⟩
            (Screen.init 1000 1000 0 0)).x) := by
  refine ⟨by decide, by decide, by decide⟩

/-- Claim C2 amended: for every monitor, margin configuration and decoration
height, the halves sum to `usable_width - 1` (not `usable_width`),
`maximized.size_x` is exactly `usable_width`, and all three rectangles
share `size_y = usable_height - decoration_height`. -/
theorem layout_invariant (s : Screen) (conf : Conf) (dh : Int) :
    (Screen.calculate_columns dh conf s).left_half.size_x +
        (Screen.calculate_columns dh conf s).right_half.size_x
      = (Screen.calculate_columns dh conf s).x - 1 ∧
    (Screen.calculate_columns dh conf s).maximized.size_x
      = (Screen.calculate_columns dh conf s).x ∧
    (Screen.calculate_columns dh conf s).left_half.size_y
      = (Screen.calculate_columns dh conf s).y - dh ∧
    (Screen.calculate_columns dh conf s).right_half.size_y
      = (Screen.calculate_columns dh conf s).y - dh ∧
    (Screen.calculate_columns dh conf s).maximized.size_y
      = (Screen.calculate_columns dh conf s).y - dh := by
  refine ⟨?_, ?_, ?_, ?_, ?_⟩ <;>
    first
      | (simp only [Screen.calculate_columns]; split_ifs <;> omega)
      | simp only [Screen.calculate_columns]

/-- Claim C5 counterexample: the maximized tolerance is a half-open Python
`range(scr.x - 32, scr.x + 32)`.  A window at (0,0) whose width exceeds
the usable width by exactly 32 pixels (claimed inside the ±32 inclusive
tolerance) is NOT classified as maximized. -/
theorem maximized_tolerance_counterexample :
    (Screen.calculate_columns 29 ⟨true, false⟩ (Screen.init 1000 1000 0 0)).x
        = 998 ∧
    winEqRect ⟨some 0, some 0, some 1030, some 500⟩
      (Screen.calculate_columns 29 ⟨true, false⟩
        (Screen.init 1000 1000 0 0)).left_half = false ∧
    winEqRect ⟨some 0, some 0, some 1030, some 500⟩
      (Screen.calculate_columns 29 ⟨true, false⟩
        (Screen.init 1000 1000 0 0)).right_half = false ∧
    guess_dimensions
      [Screen.calculate_columns 29 ⟨true, false⟩ (Screen.init 1000 1000 0 0)]
      ⟨some 0, some 0, some 1030, some 500⟩ = none := by
  refine ⟨by decide, by decide, by decide, by decide⟩

/-- Claim C5 amended: a window at exactly (0,0) whose width `n` satisfies
`usable_width - 32 ≤ n < usable_width + 32` for some screen (i.e. the
inclusive tolerance is -32..+31, not ±32), and which is not exactly equal
to the `left_half` or `right_half` of any screen in the set, classifies
as `maximized`. -/
theorem maximized_classification (screens : List Screen) (w : WinData)
    (n : Int) (hpx : w.pos_x = some 0) (hpy : w.pos_y = some 0)
    (hsz : w.size_x = some n)
    (hneq : ∀ scr ∈ screens, winEqRect w scr.left_half = false ∧
      winEqRect w scr.right_half = false)
    (hmax : ∃ scr ∈ screens, scr.x - 32 ≤ n ∧ n < scr.x + 32) :
    guess_dimensions screens w = some .maximized := by
  induction screens with
  | nil => simp at hmax
  | cons scr rest ih =>
    obtain ⟨hL, hR⟩ := hneq scr (List.mem_cons_self scr rest)
    by_cases hr : sizeInMaxRange w scr = true
    · simp [guess_dimensions, hL, hR, hpx, hpy, hr]
    · have hnotscr : ¬ (scr.x - 32 ≤ n ∧ n < scr.x + 32) := by
        intro hc
        exact hr (by simp [sizeInMaxRange, hsz, inRange, hc.1, hc.2])
      obtain ⟨scr', hmem, hb⟩ := hmax
      rcases List.mem_cons.mp hmem with rfl | hmem'
      · exact absurd hb hnotscr
      · have := ih (fun t ht => hneq t (List.mem_cons_of_mem _ ht))
          ⟨scr', hmem', hb⟩
        simpa [guess_dimensions, hL, hR, hpx, hpy, hr] using this

/-- Claim C5 witness: width 1029 = usable 998 + 31 is inside the code's
tolerance and classifies as maximized. -/
theorem maximized_classification_witness :
    guess_dimensions
      [Screen.calculate_columns 29 ⟨true, false⟩ (Screen.init 1000 1000 0 0)]
      ⟨some 0, some 0, some 1029, some 500⟩ = some .maximized :=
  maximized_classification _ _ 1029 rfl rfl rfl (by decide)
    ⟨Screen.calculate_columns 29 ⟨true, false⟩ (Screen.init 1000 1000 0 0),
      by decide, by decide, by decide⟩

/-- The last screen in the list carrying a given `x_shift` — the survivor
of the Python dict comprehension for that key. -/
def lastShift (l : List Screen) (k : Int) : Option Screen :=
  match l with
  | [] => none
  | s :: rest =>
    (lastShift rest k).elim (if s.x_shift = k then some s else none) some

theorem lookupD_updateAssoc (m : List (Int × Screen)) (k : Int) (v : Screen)
    (k' : Int) :
    lookupD (updateAssoc m k v) k' =
      if k = k' then some v else lookupD m k' := by
  induction m with
  | nil => simp [updateAssoc, lookupD]
  | cons p rest ih =>
    obtain ⟨k0, v0⟩ := p
    by_cases h0 : k0 = k
    · subst h0
      by_cases h1 : k0 = k' <;>
        simp [updateAssoc, lookupD, h1]
    · by_cases h1 : k0 = k'
      · subst h1
        have hk : ¬ k = k0 := fun hc => h0 hc.symm
        simp [updateAssoc, lookupD, h0, hk]
      · simp [updateAssoc, lookupD, h0, h1, ih]

theorem dictKeys_cons (k0 : Int) (v0 : Screen) (rest : List (Int × Screen)) :
    dictKeys ((k0, v0) :: rest) = k0 :: dictKeys rest := rfl

theorem dictKeys_updateAssoc_mem (m : List (Int × Screen)) (k : Int)
    (v : Screen) (k' : Int) :
    k' ∈ dictKeys (updateAssoc m k v) ↔ k' = k ∨ k' ∈ dictKeys m := by
  induction m with
  | nil => simp [updateAssoc, dictKeys]
  | cons p rest ih =>
    obtain ⟨k0, v0⟩ := p
    by_cases h0 : k0 = k
    · simp only [updateAssoc, if_pos h0, dictKeys_cons, List.mem_cons]
      subst h0
      tauto
    · simp only [updateAssoc, if_neg h0, dictKeys_cons, List.mem_cons, ih]
      tauto

theorem dictKeys_updateAssoc_nodup (m : List (Int × Screen)) (k : Int)
    (v : Screen) (h : (dictKeys m).Nodup) :
    (dictKeys (updateAssoc m k v)).Nodup := by
  induction m with
  | nil => simp [updateAssoc, dictKeys]
  | cons p rest ih =>
    obtain ⟨k0, v0⟩ := p
    rw [dictKeys_cons, List.nodup_cons] at h
    by_cases h0 : k0 = k
    · simp only [updateAssoc, if_pos h0, dictKeys_cons, List.nodup_cons]
      exact h
    · simp only [updateAssoc, if_neg h0, dictKeys_cons, List.nodup_cons]
      refine ⟨?_, ih h.2⟩
      intro hc
      rcases (dictKeys_updateAssoc_mem rest k v k0).mp hc with rfl | hc'
      · exact h0 rfl
      · exact h.1 hc'

theorem lookupD_fold (l : List Screen) (m : List (Int × Screen)) (k : Int) :
    lookupD (l.foldl (fun acc s => updateAssoc acc s.x_shift s) m) k =
      (lastShift l k).elim (lookupD m k) some := by
  induction l generalizing m with
  | nil => simp [lastShift]
  | cons s rest ih =>
    simp only [List.foldl_cons]
    rw [ih]
    cases h : lastShift rest k with
    | some t => simp [lastShift, h]
    | none =>
      by_cases hk : s.x_shift = k
      · simp [lastShift, h, hk, lookupD_updateAssoc]
      · have hk' : ¬ s.x_shift = k := hk
        simp [lastShift, h, hk', lookupD_updateAssoc,
          fun hc : s.x_shift = k => hk' hc]

theorem buildDict_lookup (l : List Screen) (k : Int) :
    lookupD (buildDict l) k = lastShift l k := by
  have h := lookupD_fold l [] k
  rw [buildDict, h]
  cases lastShift l k <;> simp [lookupD]

theorem lastShift_mem (l : List Screen) (k : Int) :
    ∀ s, lastShift l k = some s → s ∈ l ∧ s.x_shift = k := by
  induction l with
  | nil => intro s h; simp [lastShift] at h
  | cons t rest ih =>
    intro s h
    simp only [lastShift] at h
    cases h' : lastShift rest k with
    | some u =>
      rw [h'] at h
      simp only [Option.elim] at h
      obtain ⟨h1, h2⟩ := ih u h'
      cases h
      exact ⟨List.mem_cons_of_mem _ h1, h2⟩
    | none =>
      rw [h'] at h
      simp only [Option.elim] at h
      by_cases hk : t.x_shift = k
      · rw [if_pos hk] at h
        cases h
        exact ⟨List.mem_cons_self _ _, hk⟩
      · rw [if_neg hk] at h
        cases h

theorem dictKeys_fold_mem (l : List Screen) (m : List (Int × Screen))
    (k : Int) :
    k ∈ dictKeys (l.foldl (fun acc s => updateAssoc acc s.x_shift s) m) ↔
      k ∈ dictKeys m ∨ k ∈ l.map (fun s => s.x_shift) := by
  induction l generalizing m with
  | nil => simp
  | cons s rest ih =>
    simp only [List.foldl_cons, List.map_cons, List.mem_cons]
    rw [ih, dictKeys_updateAssoc_mem]
    tauto

theorem dictKeys_fold_nodup (l : List Screen) (m : List (Int × Screen))
    (h : (dictKeys m).Nodup) :
    (dictKeys (l.foldl (fun acc s => updateAssoc acc s.x_shift s) m)).Nodup := by
  induction l generalizing m with
  | nil => exact h
  | cons s rest ih =>
    simp only [List.foldl_cons]
    exact ih _ (dictKeys_updateAssoc_nodup _ _ _ h)

theorem insSorted_perm (x : Int) (l : List Int) :
    (insSorted x l).Perm (x :: l) := by
  induction l with
  | nil => simp [insSorted]
  | cons y ys ih =>
    simp only [insSorted]
    split_ifs
    · exact List.Perm.refl _
    · exact ((ih.cons y).trans (List.Perm.swap x y ys))

theorem sortInts_perm (l : List Int) : (sortInts l).Perm l := by
  induction l with
  | nil => simp [sortInts]
  | cons x xs ih =>
    exact (insSorted_perm x (sortInts xs)).trans (ih.cons x)

theorem lookupD_isSome_of_mem (m : List (Int × Screen)) (k : Int)
    (h : k ∈ dictKeys m) : ∃ s, lookupD m k = some s := by
  induction m with
  | nil => simp [dictKeys] at h
  | cons p rest ih =>
    obtain ⟨k0, v0⟩ := p
    by_cases h0 : k0 = k
    · exact ⟨v0, by simp [lookupD, h0]⟩
    · rw [dictKeys_cons] at h
      rcases List.mem_cons.mp h with hc | hc
    
      · exact absurd hc.symm h0
      · obtain ⟨s, hs⟩ := ih hc
        exact ⟨s, by simp [lookupD, h0, hs]⟩

theorem sortDedup_mem (l : List Screen) (s : Screen)
    (h : s ∈ sortDedup l) : s ∈ l ∧ lastShift l s.x_shift = some s := by
  obtain ⟨k, -, hlook⟩ := List.mem_filterMap.mp h
  rw [buildDict_lookup] at hlook
  obtain ⟨hmem, hshift⟩ := lastShift_mem l k s hlook
  subst hshift
  exact ⟨hmem, hlook⟩

theorem filterMap_lookup_shift (l : List Screen) :
    ∀ keys : List Int, (∀ k ∈ keys, k ∈ dictKeys (buildDict l)) →
      ((keys.filterMap (lookupD (buildDict l))).map (fun s => s.x_shift))
        = keys := by
  intro keys
  induction keys with
  | nil => intro _; simp
  | cons k ks ih =>
    intro h
    obtain ⟨s, hs⟩ := lookupD_isSome_of_mem _ k (h k (List.mem_cons_self _ _))
    have hshift : s.x_shift = k := by
      rw [buildDict_lookup] at hs
      exact (lastShift_mem l k s hs).2
    rw [List.filterMap_cons, hs, List.map_cons, hshift,
      ih (fun j hj => h j (List.mem_cons_of_mem _ hj))]

theorem sortDedup_map_shift (l : List Screen) :
    (sortDedup l).map (fun s => s.x_shift)
      = sortInts (dictKeys (buildDict l)) := by
  rw [sortDedup]
  exact filterMap_lookup_shift l _
    (fun k hk => (sortInts_perm (dictKeys (buildDict l))).mem_iff.mp hk)

theorem sortDedup_shift_nodup (l : List Screen) :
    ((sortDedup l).map (fun s => s.x_shift)).Nodup := by
  rw [sortDedup_map_shift]
  exact ((sortInts_perm _).nodup_iff).mpr
    (dictKeys_fold_nodup l [] (by simp [dictKeys]))

theorem sortDedup_shift_mem_iff (l : List Screen) (k : Int) :
    k ∈ (sortDedup l).map (fun s => s.x_shift) ↔
      k ∈ l.map (fun s => s.x_shift) := by
  rw [sortDedup_map_shift]
  rw [(sortInts_perm (dictKeys (buildDict l))).mem_iff]
  have := dictKeys_fold_mem l [] k
  simp only [dictKeys, List.map_nil, List.not_mem_nil, false_or] at this
  exact this

/-- Number of screens flagged as main. -/
def countMain (l : List Screen) : Nat :=
  (l.filter (fun s => s.main)).length

theorem mkScreen_x_shift (d : MonData) (m : Bool) :
    (mkScreen d m).x_shift = d.sx := rfl

theorem mkScreen_main (d : MonData) (m : Bool) : (mkScreen d m).main = m := rfl

theorem buildAux_map_shift (u : Bool) (mn : Option String) (f : Bool)
    (l : List (String × MonData)) :
    (buildAux u mn f l).map (fun s => s.x_shift)
      = l.map (fun nd => nd.2.sx) := by
  induction l generalizing f with
  | nil => rfl
  | cons nd rest ih => simp [buildAux, mkScreen_x_shift, ih]

theorem countMain_buildAux_false (mn : Option String) (f : Bool)
    (l : List (String × MonData)) :
    countMain (buildAux false mn f l) ≤ if f then 1 else 0 := by
  induction l generalizing f with
  | nil => simp [buildAux, countMain]
  | cons nd rest ih =>
    cases f with
    | true =>
      have := ih false
      simp only [if_false] at this
      simp only [buildAux, if_false, countMain, List.filter_cons,
        mkScreen_main, if_true]
      simpa [countMain] using Nat.add_le_add this (le_refl 1)
    | false =>
      have := ih false
      simpa [buildAux, countMain, List.filter_cons, mkScreen_main] using this

theorem countMain_buildAux_true (mn : Option String) (f : Bool)
    (l : List (String × MonData)) :
    countMain (buildAux true mn f l)
      = (l.filter (fun nd => mn == some nd.1)).length := by
  induction l generalizing f with
  | nil => simp [buildAux, countMain]
  | cons nd rest ih =>
    have hrest := ih false
    rw [countMain] at hrest
    cases hval : (mn == some nd.1) with
    | true =>
      simp only [buildAux, countMain, List.filter_cons, mkScreen_main, hval,
        if_true, List.length_cons]
      omega
    | false =>
      simp only [buildAux, countMain, List.filter_cons, mkScreen_main, hval,
        if_false]
      exact hrest

theorem filter_name_length_le_one (mn : Option String)
    (l : List (String × MonData)) (h : (l.map Prod.fst).Nodup) :
    (l.filter (fun nd => mn == some nd.1)).length ≤ 1 := by
  induction l with
  | nil => simp
  | cons nd rest ih =>
    rw [List.map_cons, List.nodup_cons] at h
    by_cases hb : (mn == some nd.1) = true
    · have hmn : mn = some nd.1 := by
        cases mn with
        | none => simp at hb
        | some t => simpa using hb
      have hrest : rest.filter (fun nd' => mn == some nd'.1) = [] := by
        rw [List.filter_eq_nil_iff]
        intro nd' hnd' hc
        have : nd'.1 = nd.1 := by
          rw [hmn] at hc
          exact (by simpa using hc : nd.1 = nd'.1).symm
        exact h.1 (this ▸ List.mem_map_of_mem Prod.fst hnd')
      simp [List.filter_cons, hb, hrest]
    · have hb' : (mn == some nd.1) = false := by
        cases hx : (mn == some nd.1)
        · rfl
        · exact absurd hx hb
      simpa [List.filter_cons, hb'] using ih h.2

theorem countMain_buildScreens_le (monitors : List (String × MonData))
    (mn : Option String) (h : (monitors.map Prod.fst).Nodup) :
    countMain (buildScreens monitors mn) ≤ 1 := by
  cases hu : (mainTruthy mn && decide (monitors.length > 1)) with
  | false =>
    rw [buildScreens, hu]
    simpa using countMain_buildAux_false mn true monitors
  | true =>
    rw [buildScreens, hu, countMain_buildAux_true]
    exact filter_name_length_le_one mn monitors h

theorem countMain_sortDedup_le (l : List Screen) (h : countMain l ≤ 1) :
    countMain (sortDedup l) ≤ 1 := by
  by_contra hc
  push_neg at hc
  have hnodup : (sortDedup l).Nodup :=
    (sortDedup_shift_nodup l).of_map
  have hfn : ((sortDedup l).filter (fun s => s.main)).Nodup :=
    hnodup.filter _
  cases hface : (sortDedup l).filter (fun s => s.main) with
  | nil => rw [countMain, hface] at hc; simp at hc
  | cons a ta =>
    cases ta with
    | nil => rw [countMain, hface] at hc; simp at hc
    | cons b t =>
      rw [hface] at hfn
      have hab : a ≠ b := by
        rw [List.nodup_cons] at hfn
        exact fun hcc => hfn.1 (hcc ▸ List.mem_cons_self b t)
      have hmema : a ∈ l.filter (fun s => s.main) := by
        have hcf : a ∈ (sortDedup l).filter (fun s => s.main) := by
          rw [hface]
          exact List.mem_cons_self _ _
        rw [List.mem_filter] at hcf ⊢
        exact ⟨(sortDedup_mem l a hcf.1).1, hcf.2⟩
      have hmemb : b ∈ l.filter (fun s => s.main) := by
        have hcf : b ∈ (sortDedup l).filter (fun s => s.main) := by
          rw [hface]
          exact List.mem_cons_of_mem _ (List.mem_cons_self _ _)
        rw [List.mem_filter] at hcf ⊢
        exact ⟨(sortDedup_mem l b hcf.1).1, hcf.2⟩
      have hsub : ({a, b} : Finset Screen)
          ⊆ (l.filter (fun s => s.main)).toFinset := by
        intro c hcmem
        rw [List.mem_toFinset]
        rcases Finset.mem_insert.mp hcmem with rfl | hcmem
        · exact hmema
        · rw [Finset.mem_singleton] at hcmem
          subst hcmem
          exact hmemb
      have h2 : 2 ≤ (l.filter (fun s => s.main)).toFinset.card := by
        calc 2 = ({a, b} : Finset Screen).card := (Finset.card_pair hab).symm
          _ ≤ _ := Finset.card_le_card hsub
      have h3 := (l.filter (fun s => s.main)).toFinset_card_le
      rw [countMain] at h
      omega

theorem calculate_columns_x_shift (dh : Int) (conf : Conf) (s : Screen) :
    (Screen.calculate_columns dh conf s).x_shift = s.x_shift := rfl

theorem calculate_columns_main (dh : Int) (conf : Conf) (s : Screen) :
    (Screen.calculate_columns dh conf s).main = s.main := rfl

theorem countMain_map_calc (dh : Int) (conf : Conf) (l : List Screen) :
    countMain (l.map (Screen.calculate_columns dh conf)) = countMain l := by
  induction l with
  | nil => rfl
  | cons s rest ih =>
    simp only [countMain] at ih ⊢
    obtain ⟨x, y, xs, ys, m, lh, rh, mx⟩ := s
    simp only [List.map_cons, List.filter_cons, calculate_columns_main]
    cases m <;> simp [ih]

/-- Claim C6 counterexample: two 1920-wide monitors at shifts 0 and 1920, no
explicit main, and one 64x64 dock candidate at x = 1920.  The winning
shift 1920 lies in both screens' closed spans (`range(x_shift,
x + x_shift + 1)` of adjacent monitors overlap at the shared boundary),
so BOTH Layouts end up with `main = true`. -/
theorem two_mains_counterexample :
    countMain (discover_screens
      [("A", ⟨1920, 1080, 0, 0⟩), ("B", ⟨1920, 1080, 1920, 0⟩)] none
      [(1920, 10)] ⟨true, false⟩ 29) = 2 := by decide

/-- Claim C6 amended: at most one Layout is main on every construction path on
which the dock-inference pass does not run (explicit truthy main name, or
fewer than two distinct-origin screens); the inference pass itself can
mark several Layouts main when the winning shift lies in more than one
closed span. -/
theorem at_most_one_main (monitors : List (String × MonData))
    (mn : Option String) (cands : List (Int × Int)) (conf : Conf) (dh : Int)
    (hnd : (monitors.map Prod.fst).Nodup)
    (hpass : dockPassCond monitors mn = false) :
    countMain (discover_screens monitors mn cands conf dh) ≤ 1 := by
  simp only [discover_screens, hpass, Bool.false_eq_true, if_false]
  rw [countMain_map_calc]
  exact countMain_sortDedup_le _ (countMain_buildScreens_le monitors mn hnd)

/-- Claim C6 witness: a single monitor yields exactly one main Layout. -/
theorem at_most_one_main_witness :
    countMain (discover_screens [("eDP-1", ⟨1920, 1080, 0, 0⟩)] none []
      ⟨true, false⟩ 29) ≤ 1 :=
  at_most_one_main _ none [] ⟨true, false⟩ 29 (by decide) (by decide)

/-- Claim C7 counterexample: two monitors, no explicit main, and an empty dock
candidate list.  The winner variable keeps its initial value 0, so the
screen whose span contains x = 0 IS marked main — not "no Layout". -/
theorem no_candidates_counterexample :
    (discover_screens [("A", ⟨1920, 1080, 0, 0⟩), ("B", ⟨1920, 1080, 1920, 0⟩)]
        none [] ⟨true, false⟩ 29).map (fun s => (s.x_shift, s.main))
      = [((0 : Int), true), ((1920 : Int), false)] := by decide

/-- Claim C7 amended: with no 64x64 candidates the winning shift defaults to 0,
and the inference pass marks main exactly the Layouts whose raw span
`range(x_shift, x + x_shift + 1)` contains 0 (so a monitor at origin 0 is
marked main), all others not main. -/
theorem no_candidates_default_winner (monitors : List (String × MonData))
    (mn : Option String) (conf : Conf) (dh : Int)
    (hpass : dockPassCond monitors mn = true) :
    (discover_screens monitors mn [] conf dh).map
        (fun s => (s.x_shift, s.main))
      = (sortDedup (buildScreens monitors mn)).map
          (fun s => (s.x_shift, inRange 0 s.x_shift (s.x + s.x_shift + 1))) := by
  simp only [discover_screens, hpass, if_true, detect_dock_position,
    groupCands, List.foldl_nil, pickWinner, List.map_map]
  refine List.map_congr_left ?_
  intro s hs
  simp [Function.comp, calculate_columns_x_shift, calculate_columns_main]

/-- Claim C7 witness: the amended statement at a concrete two-monitor set. -/
theorem no_candidates_default_winner_witness :
    (discover_screens [("A", ⟨1920, 1080, 0, 0⟩), ("B", ⟨1920, 1080, 1920, 0⟩)]
        none [] ⟨true, false⟩ 29).map (fun s => (s.x_shift, s.main))
      = (sortDedup (buildScreens
          [("A", ⟨1920, 1080, 0, 0⟩), ("B", ⟨1920, 1080, 1920, 0⟩)] none)).map
          (fun s => (s.x_shift, inRange 0 s.x_shift (s.x + s.x_shift + 1))) :=
  no_candidates_default_winner _ none ⟨true, false⟩ 29 (by decide)

theorem discover_map_shift (monitors : List (String × MonData))
    (mn : Option String) (cands : List (Int × Int)) (conf : Conf) (dh : Int) :
    (discover_screens monitors mn cands conf dh).map (fun s => s.x_shift)
      = (sortDedup (buildScreens monitors mn)).map (fun s => s.x_shift) := by
  simp only [discover_screens, detect_dock_position, List.map_map]
  split_ifs <;> simp [Function.comp, calculate_columns_x_shift]

/-- Claim C10: the discovered set has exactly one Layout per distinct raw
horizontal origin (its origin list is duplicate-free and has the same
members as the raw monitor origins); the survivor for each origin is the
LAST built screen with that origin; and a duplicated origin makes the
result strictly smaller than the input mapping, as on the concrete
two-monitor set sharing origin 0. -/
theorem survivors_by_origin (monitors : List (String × MonData))
    (mn : Option String) (cands : List (Int × Int)) (conf : Conf) (dh : Int) :
    ((discover_screens monitors mn cands conf dh).map
        (fun s => s.x_shift)).Nodup ∧
    (∀ k : Int,
      k ∈ (discover_screens monitors mn cands conf dh).map (fun s => s.x_shift)
        ↔ k ∈ monitors.map (fun nd => nd.2.sx)) ∧
    (∀ s ∈ sortDedup (buildScreens monitors mn),
      lastShift (buildScreens monitors mn) s.x_shift = some s) ∧
    (discover_screens [("A", ⟨800, 600, 0, 0⟩), ("B", ⟨1024, 768, 0, 0⟩)]
        none [] ⟨true, false⟩ 29).length = 1 := by
  refine ⟨?_, ?_, ?_, by decide⟩
  · rw [discover_map_shift]
    exact sortDedup_shift_nodup _
  · intro k
    rw [discover_map_shift, sortDedup_shift_mem_iff, buildScreens,
      buildAux_map_shift]
  · intro s hs
    exact (sortDedup_mem _ s hs).2

/-- Claim C10 witness: the origin-membership equivalence at origin 0 on a
concrete duplicated-origin monitor mapping. -/
theorem survivors_by_origin_witness :
    ((0 : Int) ∈ (discover_screens
        [("A", ⟨800, 600, 0, 0⟩), ("B", ⟨1024, 768, 0, 0⟩)] none []
        ⟨true, false⟩ 29).map (fun s => s.x_shift)
      ↔ (0 : Int) ∈ ([("A", (⟨800, 600, 0, 0⟩ : MonData)),
          ("B", ⟨1024, 768, 0, 0⟩)]).map (fun nd => nd.2.sx)) :=
  (survivors_by_origin _ none [] ⟨true, false⟩ 29).2.1 0

theorem guess_dimensions_allNone (screens : List Screen) :
    guess_dimensions screens ⟨none, none, none, none⟩ = none := by
  induction screens with
  | nil => rfl
  | cons scr rest ih =>
    simp [guess_dimensions, winEqRect, sizeInMaxRange, ih]

theorem get_props_non3 (magic : Int) (screens : List Screen)
    (out : List OutLine) (h : out.length ≠ 3) :
    get_props magic screens out = (⟨none, none, none, none⟩, 0) := by
  rcases out with _ | ⟨a, _ | ⟨b, _ | ⟨c, _ | ⟨d, rest⟩⟩⟩⟩
  · rfl
  · rfl
  · rfl
  · exact absurd rfl h
  · rfl

/-- Claim C4 amended: when the window-geometry query output is not the expected
3-line shape, all four window fields become unknown, which classifies the
window as state `none`; the cycle then proceeds from monitor index 0 with
the `none`-state transition instead of aborting (a warning is logged but
commands are still emitted when a screen exists). -/
theorem query_failure_proceeds (magic dh : Int) (conf : Conf)
    (monitors : List (String × MonData)) (mn : Option String)
    (cands : List (Int × Int)) (title : List Char) (out : List OutLine)
    (dir : Direction) (hlen : out.length ≠ 3) :
    cycle magic dh conf monitors mn cands title out dir
      = cycleCore (discover_screens monitors mn cands conf dh) 0 none title
          dir := by
  simp only [cycle,
    get_props_non3 magic (discover_screens monitors mn cands conf dh) out
      hlen,
    guess_dimensions_allNone]

/-- Claim C4 counterexample: a failing geometry query (empty output) on a single
1920x1080 monitor still emits a full windowmove/windowsize/mousemove
sequence — the cycle does not abort. -/
theorem query_failure_counterexample :
    cycle 21 29 ⟨true, false⟩ [("eDP-1", ⟨1920, 1080, 0, 0⟩)] none [] [] []
        .left
      = some ([Cmd.windowmove (((0 : Int)) : ℚ) (((0 : Int)) : ℚ),
               Cmd.windowsize (((926 : Int)) : ℚ) (((1051 : Int)) : ℚ),
               Cmd.mousemove ((((0 : Int)) : ℚ) + (((926 : Int)) : ℚ) / 2)
                 ((((0 : Int)) : ℚ) + (((1051 : Int)) : ℚ) / 2)], 0) := rfl

/-- Claim C4 witness: the amended statement at the concrete failing query. -/
theorem query_failure_witness :
    cycle 21 29 ⟨true, false⟩ [("eDP-1", ⟨1920, 1080, 0, 0⟩)] none [] [] []
        .left
      = cycleCore (discover_screens [("eDP-1", ⟨1920, 1080, 0, 0⟩)] none []
          ⟨true, false⟩ 29) 0 none [] .left :=
  query_failure_proceeds 21 29 ⟨true, false⟩ _ none [] [] [] .left (by decide)
